import Mathlib

/-!
Verification of the Thorlabs `Filter_Flipper` driver
(`instrumental/drivers/motion/filter_flipper.py`).

The driver is a thin stateful wrapper over an opaque native motion
controller.  We embed it shallowly:

* Durations are rational numbers of milliseconds (pint quantities carrying
  time units; `check_units` guarantees the dimension, conversion factors
  between time units are exact rationals).
* The native controller is modelled by an oracle `pollResults : ℕ → ℤ`
  giving the integer code returned by the n-th `FF_GetPosition` query, plus
  the stored transit time.  Every native call a method issues is recorded in
  an explicit trace.
* Python exceptions become an error type returned through `Except`.
* The unbounded `while` loop of `move_and_wait` is embedded with fuel; the
  theorems quantify over fuel to recover the unbounded behaviour.
-/

namespace FilterFlipper

/-- The `Position` enum of the driver: `one = 1`, `two = 2`, `moving = 0`. -/
inductive Position where
  | one
  | two
  | moving
deriving DecidableEq, Repr

/-- The integer `value` of each `Position` enum member (source lines 124-128). -/
def Position.value : Position → ℤ
  | Position.one => 1
  | Position.two => 2
  | Position.moving => 0

/-- Python's `Position(code)` enum lookup: succeeds exactly on the declared
member values 1, 2, 0; any other code raises `ValueError`. -/
def Position.ofCode (code : ℤ) : Option Position :=
  if code = 1 then some Position.one
  else if code = 2 then some Position.two
  else if code = 0 then some Position.moving
  else none

/-- Python exceptions the wrapper can raise. -/
inductive PyError where
  | valueError (msg : String)
  | pyException (msg : String)
  | instrumentTypeError
  | ffiTypeError
deriving DecidableEq, Repr

/-- One call into the native Kinesis library (or a `time.sleep`), with the
argument/result as seen from the wrapper. -/
inductive NativeCall where
  | ffOpen
  | ffClose
  | loadSettings
  | startPolling (periodMs : ℚ)
  | stopPolling
  | getPositionCall (code : ℤ)
  | moveToPosition (posCode : ℤ)
  | getTransitTime (ms : ℕ)
  | setTransitTime (ms : ℕ)
  | sleepSec (seconds : ℚ)
  | homeCall
deriving DecidableEq, Repr

/-- `true` exactly on the move commands issued to the hardware. -/
def NativeCall.isMove : NativeCall → Bool
  | NativeCall.moveToPosition _ => true
  | _ => false

/-- The wrapper-visible device state: the oracle of native `GetPosition`
results, the index of the next query, and the stored transit time
(an unsigned integer number of milliseconds in the native layer). -/
structure FFState where
  pollResults : ℕ → ℤ
  pollIdx : ℕ
  transit : ℕ

/-- `Filter_Flipper.isValidPosition` (source lines 224-237).  `check_enums`
guarantees the argument is a `Position` instance, so the `isinstance` test
is always true. -/
def isValidPosition (position : Position) : Bool :=
  let ismoving := position == Position.moving
  let isposition := true
  if ismoving || !isposition then false else true

/-- `Filter_Flipper.get_position` (source lines 172-176): one native
`GetPosition` query decoded through the `Position` enum; an unlisted code
raises `ValueError` (Python enum lookup). -/
def get_position (s : FFState) : Except PyError (Position × FFState × List NativeCall) :=
  let code := s.pollResults s.pollIdx
  let s' : FFState := { s with pollIdx := s.pollIdx + 1 }
  match Position.ofCode code with
  | some p => Except.ok (p, s', [NativeCall.getPositionCall code])
  | none => Except.error (PyError.valueError (toString code ++ " is not a valid Position"))

/-- `Filter_Flipper.move_to` (source lines 188-200): reject an invalid
target with `ValueError`, otherwise issue one native `MoveToPosition`. -/
def move_to (s : FFState) (position : Position) : Except PyError (FFState × List NativeCall) :=
  if isValidPosition position = false then
    Except.error (PyError.valueError "Not a valid position")
  else
    Except.ok (s, [NativeCall.moveToPosition position.value])

/-- `Filter_Flipper.flip` (source lines 178-186). -/
def flip (s : FFState) : Except PyError (FFState × List NativeCall) :=
  match get_position s with
  | Except.error e => Except.error e
  | Except.ok (position, s', tr) =>
    match position with
    | Position.one =>
      match move_to s' Position.two with
      | Except.error e => Except.error e
      | Except.ok (s'', tr') => Except.ok (s'', tr ++ tr')
    | Position.two =>
      match move_to s' Position.one with
      | Except.error e => Except.error e
      | Except.ok (s'', tr') => Except.ok (s'', tr ++ tr')
    | Position.moving =>
      Except.error (PyError.pyException "Could not flip because the current position is not valid")

/-- `Filter_Flipper.get_transit_time` (source lines 243-247): one native
query, wrapped as a quantity of milliseconds. -/
def get_transit_time (s : FFState) : ℚ × FFState × List NativeCall :=
  ((s.transit : ℚ), s, [NativeCall.getTransitTime s.transit])

/-- `Filter_Flipper.set_transit_time` (source lines 249-257): the wrapper
computes `transit_time.to('ms').magnitude` and passes it to the native call
unchanged — it performs no rounding.  Modelled from the spec for the opaque
boundary: `FF_SetTransitTime` takes an unsigned integer number of
milliseconds ("all units crossing this boundary are integers in native
units"), so only a whole non-negative magnitude can cross; a fractional or
negative magnitude fails at the foreign-function boundary. -/
def set_transit_time (s : FFState) (transit_time : ℚ) : Except PyError (FFState × List NativeCall) :=
  let mag := transit_time
  if mag.den = 1 ∧ 0 ≤ mag then
    Except.ok ({ s with transit := mag.num.toNat }, [NativeCall.setTransitTime mag.num.toNat])
  else
    Except.error PyError.ffiTypeError

/-- `set_transit_time` followed by `get_transit_time`, returning the
duration the second call reports. -/
def transitRoundTrip (s : FFState) (d : ℚ) : Except PyError ℚ :=
  match set_transit_time s d with
  | Except.error e => Except.error e
  | Except.ok (s', _) => Except.ok (get_transit_time s').1

/-- `Filter_Flipper._start_polling` (source lines 161-170): stores
`polling_period.to('ms').magnitude` unchanged and passes it to the native
`StartPolling` call.  Returns the stored attribute and the trace. -/
def start_polling (s : FFState) (polling_period : ℚ) : ℚ × List NativeCall :=
  (polling_period, [NativeCall.startPolling polling_period])

/-- `Filter_Flipper.close` (source lines 158-159): a single native `Close`
call; the method body contains no `StopPolling` call. -/
def close (s : FFState) : List NativeCall :=
  [NativeCall.ffClose]

/-- The set of serial numbers of physically connected devices, as the
vendor's enumeration would report them.  The constructor receives it only
so that theorems can speak about non-discoverable serials: the source
constructor never consults discovery. -/
structure DiscoveryWorld where
  discoverable : List String

/-- `Filter_Flipper.__init__` (source lines 140-153): binds the serial,
then unconditionally issues `Open`, `LoadSettings` and
`StartPolling(polling_period)` — no discovery check, no error path in the
wrapper (returns from the native library are not checked). -/
def Filter_Flipper_init (world : DiscoveryWorld) (serial : String) (polling_period : ℚ) :
    Except PyError (List NativeCall) :=
  Except.ok [NativeCall.ffOpen, NativeCall.loadSettings, NativeCall.startPolling polling_period]

/-- Module-level `_instrument` (source lines 47-55): raises
`InstrumentTypeError` when the params carry no `ff_serial` entry, otherwise
constructs the driver with the default 200 ms polling period. -/
def _instrument (world : DiscoveryWorld) (params : List (String × String)) :
    Except PyError (List NativeCall) :=
  match params.lookup "ff_serial" with
  | some serial => Filter_Flipper_init world serial 200
  | none => Except.error PyError.instrumentTypeError

/-- The `while self.get_position() != position: sleep(delay)` loop of
`move_and_wait` (source lines 221-222), with fuel.  `none` means the fuel
ran out with the loop still running. -/
def pollLoop (s : FFState) (position : Position) (delay : ℚ) :
    ℕ → Option (Except PyError (FFState × List NativeCall))
  | 0 => none
  | fuel + 1 =>
    match get_position s with
    | Except.error e => some (Except.error e)
    | Except.ok (p, s', tr) =>
      if p = position then some (Except.ok (s', tr))
      else
        match pollLoop s' position delay fuel with
        | none => none
        | some (Except.error e) => some (Except.error e)
        | some (Except.ok (s'', tr')) =>
          some (Except.ok (s'', tr ++ [NativeCall.sleepSec (delay / 1000)] ++ tr'))

/-- `Filter_Flipper.move_and_wait` (source lines 202-222): query the
current position, reject an invalid target, and when the current position
differs from the target read the transit time, issue the move, sleep the
transit time (converted to seconds) and poll until arrival. -/
def move_and_wait (s : FFState) (position : Position) (delay : ℚ) (fuel : ℕ) :
    Option (Except PyError (FFState × List NativeCall)) :=
  match get_position s with
  | Except.error e => some (Except.error e)
  | Except.ok (current_position, s1, tr1) =>
    if isValidPosition position = false then
      some (Except.error (PyError.valueError "Not a valid position"))
    else if current_position ≠ position then
      match get_transit_time s1 with
      | (transit_time, s2, tr2) =>
        match move_to s2 position with
        | Except.error e => some (Except.error e)
        | Except.ok (s3, tr3) =>
          match pollLoop s3 position delay fuel with
          | none => none
          | some (Except.error e) => some (Except.error e)
          | some (Except.ok (s4, tr4)) =>
            some (Except.ok (s4,
              tr1 ++ tr2 ++ tr3 ++ [NativeCall.sleepSec (transit_time / 1000)] ++ tr4))
    else
      some (Except.ok (s1, tr1))

/-- The trace produced by a successful polling loop that first sees the
target on its (k+1)-th query: k query/sleep pairs followed by the final
query that observes the target. -/
def loopTrace (s : FFState) (delay : ℚ) : ℕ → List NativeCall
  | 0 => [NativeCall.getPositionCall (s.pollResults s.pollIdx)]
  | k + 1 =>
    NativeCall.getPositionCall (s.pollResults s.pollIdx) ::
      NativeCall.sleepSec (delay / 1000) ::
        loopTrace { s with pollIdx := s.pollIdx + 1 } delay k

/-- A sample device: reports code 1 (`one`) on the first query and code 2
(`two`) afterwards; transit time 500 ms. -/
def sampleOneThenTwo : FFState :=
  { pollResults := fun n => if n = 0 then 1 else 2, pollIdx := 0, transit := 500 }

/-- A sample device constantly reporting code 2 (`two`). -/
def sampleTwo : FFState :=
  { pollResults := fun _ => 2, pollIdx := 0, transit := 500 }

/-- A sample device constantly reporting code 1 (`one`). -/
def sampleOne : FFState :=
  { pollResults := fun _ => 1, pollIdx := 0, transit := 500 }

/-- A sample device constantly reporting code 0 (`moving`). -/
def sampleMoving : FFState :=
  { pollResults := fun _ => 0, pollIdx := 0, transit := 500 }

/-- A sample device constantly reporting the invalid code 7. -/
def sampleBadCode : FFState :=
  { pollResults := fun _ => 7, pollIdx := 0, transit := 500 }

/-- C8: `isValidPosition` is a pure predicate on `Position` values: it is
true on `one` and `two` and false on `moving`. -/
theorem C8_isValidPosition_pure :
    isValidPosition Position.one = true ∧ isValidPosition Position.two = true ∧
      isValidPosition Position.moving = false := by decide

/-- C2: `flip` dispatches on the reported position: at `one` it issues a
single native move to position 2, at `two` a single native move to
position 1, and at `moving` it raises the operational `Exception` without
issuing any move. -/
theorem C2_flip_dispatch (s : FFState) (p : Position)
    (hp : Position.ofCode (s.pollResults s.pollIdx) = some p) :
    flip s =
      match p with
      | Position.one => Except.ok ({ s with pollIdx := s.pollIdx + 1 },
          [NativeCall.getPositionCall (s.pollResults s.pollIdx), NativeCall.moveToPosition 2])
      | Position.two => Except.ok ({ s with pollIdx := s.pollIdx + 1 },
          [NativeCall.getPositionCall (s.pollResults s.pollIdx), NativeCall.moveToPosition 1])
      | Position.moving =>
          Except.error (PyError.pyException
            "Could not flip because the current position is not valid") := by
  cases p <;>
    simp [flip, get_position, hp, move_to, isValidPosition, Position.value]

/-- C2 witness: `flip` evaluated on concrete devices reporting `one`,
`two` and `moving`. -/
theorem C2_flip_dispatch_witness :
    flip sampleOne = Except.ok ({ sampleOne with pollIdx := 1 },
      [NativeCall.getPositionCall 1, NativeCall.moveToPosition 2]) ∧
    flip sampleTwo = Except.ok ({ sampleTwo with pollIdx := 1 },
      [NativeCall.getPositionCall 2, NativeCall.moveToPosition 1]) ∧
    flip sampleMoving = Except.error (PyError.pyException
      "Could not flip because the current position is not valid") :=
  ⟨C2_flip_dispatch sampleOne Position.one rfl,
   C2_flip_dispatch sampleTwo Position.two rfl,
   C2_flip_dispatch sampleMoving Position.moving rfl⟩

/-- C3: for every device state, poll delay and fuel, `move_to moving` and
`move_and_wait moving` fail with a `ValueError` (invalid argument). -/
theorem C3_moving_target_rejected (s : FFState) (delay : ℚ) (fuel : ℕ) :
    move_to s Position.moving = Except.error (PyError.valueError "Not a valid position") ∧
    ∃ msg, move_and_wait s Position.moving delay fuel =
      some (Except.error (PyError.valueError msg)) := by
  constructor
  · rfl
  · rcases h : Position.ofCode (s.pollResults s.pollIdx) with _ | p
    · exact ⟨toString (s.pollResults s.pollIdx) ++ " is not a valid Position",
        by simp [move_and_wait, get_position, h]⟩
    · exact ⟨"Not a valid position",
        by simp [move_and_wait, get_position, h, isValidPosition]⟩

/-- C4: when the reported position already equals the (valid) target,
`move_and_wait` returns after its single position query, with no move
command in its trace. -/
theorem C4_already_at_target (s : FFState) (position : Position) (delay : ℚ) (fuel : ℕ)
    (hvalid : isValidPosition position = true)
    (hp : Position.ofCode (s.pollResults s.pollIdx) = some position) :
    move_and_wait s position delay fuel =
      some (Except.ok ({ s with pollIdx := s.pollIdx + 1 },
        [NativeCall.getPositionCall (s.pollResults s.pollIdx)])) ∧
    ([NativeCall.getPositionCall (s.pollResults s.pollIdx)]).countP NativeCall.isMove = 0 := by
  constructor
  · simp [move_and_wait, get_position, hp, hvalid]
  · simp [List.countP, List.countP.go, NativeCall.isMove]

/-- C4 witness: a device already at `two` asked to move to `two`. -/
theorem C4_already_at_target_witness :
    move_and_wait sampleTwo Position.two 100 3 =
      some (Except.ok ({ sampleTwo with pollIdx := 1 }, [NativeCall.getPositionCall 2])) :=
  (C4_already_at_target sampleTwo Position.two 100 3 (by decide) rfl).1

/-- C10: `get_position` returns a `Position` exactly for the native codes
0, 1, 2 (mapped to `moving`, `one`, `two` respectively) and raises a
`ValueError` for every other code. -/
theorem C10_get_position_codes (s : FFState) :
    (s.pollResults s.pollIdx = 0 →
      get_position s = Except.ok (Position.moving, { s with pollIdx := s.pollIdx + 1 },
        [NativeCall.getPositionCall 0])) ∧
    (s.pollResults s.pollIdx = 1 →
      get_position s = Except.ok (Position.one, { s with pollIdx := s.pollIdx + 1 },
        [NativeCall.getPositionCall 1])) ∧
    (s.pollResults s.pollIdx = 2 →
      get_position s = Except.ok (Position.two, { s with pollIdx := s.pollIdx + 1 },
        [NativeCall.getPositionCall 2])) ∧
    (s.pollResults s.pollIdx ≠ 0 → s.pollResults s.pollIdx ≠ 1 → s.pollResults s.pollIdx ≠ 2 →
      get_position s = Except.error (PyError.valueError
        (toString (s.pollResults s.pollIdx) ++ " is not a valid Position"))) := by
  refine ⟨fun h => ?_, fun h => ?_, fun h => ?_, fun h0 h1 h2 => ?_⟩
  · simp [get_position, Position.ofCode, h]
  · simp [get_position, Position.ofCode, h]
  · simp [get_position, Position.ofCode, h]
  · simp [get_position, Position.ofCode, h0, h1, h2]

/-- C10 witness: `get_position` evaluated at the codes 0, 1, 2 and at the
unlisted code 7. -/
theorem C10_get_position_codes_witness :
    get_position sampleMoving = Except.ok (Position.moving,
      { sampleMoving with pollIdx := 1 }, [NativeCall.getPositionCall 0]) ∧
    get_position sampleOne = Except.ok (Position.one,
      { sampleOne with pollIdx := 1 }, [NativeCall.getPositionCall 1]) ∧
    get_position sampleTwo = Except.ok (Position.two,
      { sampleTwo with pollIdx := 1 }, [NativeCall.getPositionCall 2]) ∧
    get_position sampleBadCode = Except.error (PyError.valueError
      (toString (7 : ℤ) ++ " is not a valid Position")) :=
  ⟨(C10_get_position_codes sampleMoving).1 rfl,
   (C10_get_position_codes sampleOne).2.1 rfl,
   (C10_get_position_codes sampleTwo).2.2.1 rfl,
   (C10_get_position_codes sampleBadCode).2.2.2 (by decide) (by decide) (by decide)⟩

/-- C6 counterexample: `close` issues no `StopPolling` call at all, so it
does not issue exactly one stop-polling and one close call. -/
theorem C6_close_no_stop_polling :
    ¬ ((close sampleTwo).count NativeCall.stopPolling = 1 ∧
       (close sampleTwo).count NativeCall.ffClose = 1) := by decide

/-- C6 amended: for every device state, `close` issues exactly one native
`Close` call and zero `StopPolling` calls; its trace does not depend on
any previous activity. -/
theorem C6_close_counts (s : FFState) :
    (close s).count NativeCall.ffClose = 1 ∧ (close s).count NativeCall.stopPolling = 0 :=
  ⟨rfl, rfl⟩

/-- C7 counterexample: with no device discoverable, constructing with the
serial "37000001" still succeeds and its trace contains one native `Open`
call, instead of failing with a not-found error before opening. -/
theorem C7_unknown_serial_not_rejected :
    ¬ ("37000001" ∈ (DiscoveryWorld.mk []).discoverable) ∧
    Filter_Flipper_init (DiscoveryWorld.mk []) "37000001" 200 =
      Except.ok [NativeCall.ffOpen, NativeCall.loadSettings, NativeCall.startPolling 200] ∧
    [NativeCall.ffOpen, NativeCall.loadSettings,
      NativeCall.startPolling 200].count NativeCall.ffOpen = 1 := by
  refine ⟨?_, rfl, by decide⟩
  intro h
  simp at h

/-- C7 amended: the only not-found-style failure is `_instrument` raising
`InstrumentTypeError` when the params carry no `ff_serial` entry (before
any native call); the constructor itself performs one unconditional native
`Open` for any serial, discoverable or not. -/
theorem C7_no_serial_param_rejected (world : DiscoveryWorld) (serial : String)
    (polling_period : ℚ) (params : List (String × String))
    (hserial : params.lookup "ff_serial" = none) :
    _instrument world params = Except.error PyError.instrumentTypeError ∧
    Filter_Flipper_init world serial polling_period =
      Except.ok [NativeCall.ffOpen, NativeCall.loadSettings,
        NativeCall.startPolling polling_period] :=
  ⟨by simp [_instrument, hserial], rfl⟩

/-- C7 amended witness: params without an `ff_serial` entry are rejected;
a direct construction performs the open/load/start-polling sequence. -/
theorem C7_no_serial_param_rejected_witness :
    _instrument (DiscoveryWorld.mk ["37000001"]) [("visa_address", "x")] =
      Except.error PyError.instrumentTypeError ∧
    Filter_Flipper_init (DiscoveryWorld.mk ["37000001"]) "37000001" 200 =
      Except.ok [NativeCall.ffOpen, NativeCall.loadSettings,
        NativeCall.startPolling 200] :=
  C7_no_serial_param_rejected (DiscoveryWorld.mk ["37000001"]) "37000001" 200
    [("visa_address", "x")] (by decide)

/-- C5 counterexample: for the fractional duration 100.5 ms the wrapper
performs no rounding; the unrounded magnitude cannot cross the integer
native boundary, so the set/get round trip does not return the duration
rounded to whole milliseconds. -/
theorem C5_fractional_ms_not_rounded :
    transitRoundTrip sampleTwo (201 / 2) = Except.error PyError.ffiTypeError ∧
    transitRoundTrip sampleTwo (201 / 2) ≠
      Except.ok ((round ((201 : ℚ) / 2) : ℤ) : ℚ) := by
  have h : transitRoundTrip sampleTwo (201 / 2) = Except.error PyError.ffiTypeError := by
    have hden : ¬ (((201 : ℚ) / 2).den = 1) := by
      intro hd
      have h2 : ((((201 : ℚ) / 2).num : ℤ) : ℚ) = (201 : ℚ) / 2 :=
        Rat.coe_int_num_of_den_eq_one hd
      have h3 : ((((201 : ℚ) / 2).num : ℤ) : ℚ) * 2 = 201 := by rw [h2]; ring
      have h4 : ((201 : ℚ) / 2).num * 2 = 201 := by exact_mod_cast h3
      omega
    simp [transitRoundTrip, set_transit_time, hden]
  exact ⟨h, by rw [h]; simp⟩

/-- C5 amended: for every duration that is a whole, non-negative number of
milliseconds, `set_transit_time` followed by `get_transit_time` returns
the duration exactly; the wrapper itself never rounds. -/
theorem C5_whole_ms_roundtrip (s : FFState) (d : ℚ) (hden : d.den = 1) (hpos : 0 ≤ d) :
    transitRoundTrip s d = Except.ok d := by
  have h0 : (0 : ℤ) ≤ d.num := Rat.num_nonneg.mpr hpos
  have hnum : ((d.num.toNat : ℕ) : ℚ) = d := by
    have h1 : ((d.num.toNat : ℕ) : ℤ) = d.num := Int.toNat_of_nonneg h0
    have h2 : (d.num : ℚ) = d := Rat.coe_int_num_of_den_eq_one hden
    conv_rhs => rw [← h2]
    exact_mod_cast h1
  simp [transitRoundTrip, set_transit_time, get_transit_time, hden, hpos, hnum]

/-- C5 amended witness: a 500 ms transit time round-trips exactly. -/
theorem C5_whole_ms_roundtrip_witness :
    transitRoundTrip sampleTwo 500 = Except.ok 500 :=
  C5_whole_ms_roundtrip sampleTwo 500 (by decide) (by norm_num)

/-- Evaluation of `get_position` when the native code is not a `Position`
member value. -/
lemma get_position_err (s : FFState)
    (h : Position.ofCode (s.pollResults s.pollIdx) = none) :
    get_position s = Except.error (PyError.valueError
      (toString (s.pollResults s.pollIdx) ++ " is not a valid Position")) := by
  simp [get_position, h]

/-- Evaluation of `get_position` when the native code decodes to `p`. -/
lemma get_position_some (s : FFState) (p : Position)
    (h : Position.ofCode (s.pollResults s.pollIdx) = some p) :
    get_position s = Except.ok (p, { s with pollIdx := s.pollIdx + 1 },
      [NativeCall.getPositionCall (s.pollResults s.pollIdx)]) := by
  simp [get_position, h]

/-- A polling loop that ends normally emitted no move command. -/
lemma pollLoop_no_move (position : Position) (delay : ℚ) :
    ∀ (fuel : ℕ) (s s' : FFState) (tr : List NativeCall),
      pollLoop s position delay fuel = some (Except.ok (s', tr)) →
      tr.countP NativeCall.isMove = 0 := by
  intro fuel
  induction fuel with
  | zero =>
    intro s s' tr h
    simp [pollLoop] at h
  | succ n ih =>
    intro s s' tr h
    rcases hc : Position.ofCode (s.pollResults s.pollIdx) with _ | p
    · simp only [pollLoop, get_position_err s hc] at h
      simp at h
    · simp only [pollLoop, get_position_some s p hc] at h
      by_cases hp : p = position
      · rw [if_pos hp] at h
        simp only [Option.some.injEq, Except.ok.injEq, Prod.mk.injEq] at h
        rw [← h.2]
        simp [List.countP_cons, NativeCall.isMove]
      · rw [if_neg hp] at h
        rcases hrec : pollLoop { s with pollIdx := s.pollIdx + 1 } position delay n
          with _ | (e | ⟨s2, tr2⟩)
        · simp [hrec] at h
        · simp [hrec] at h
        · simp only [hrec, Option.some.injEq, Except.ok.injEq, Prod.mk.injEq] at h
          rw [← h.2]
          simp [List.countP_append, List.countP_cons, NativeCall.isMove,
            ih { s with pollIdx := s.pollIdx + 1 } s2 tr2 hrec]

/-- A polling loop that ends normally observed the target at some query. -/
lemma pollLoop_ok_arrival (position : Position) (delay : ℚ) :
    ∀ (fuel : ℕ) (s : FFState) (r : FFState × List NativeCall),
      pollLoop s position delay fuel = some (Except.ok r) →
      ∃ m, Position.ofCode (s.pollResults (s.pollIdx + m)) = some position := by
  intro fuel
  induction fuel with
  | zero =>
    intro s r h
    simp [pollLoop] at h
  | succ n ih =>
    intro s r h
    rcases hc : Position.ofCode (s.pollResults s.pollIdx) with _ | p
    · simp only [pollLoop, get_position_err s hc] at h
      simp at h
    · simp only [pollLoop, get_position_some s p hc] at h
      by_cases hp : p = position
      · exact ⟨0, by rw [Nat.add_zero, hc, hp]⟩
      · rw [if_neg hp] at h
        rcases hrec : pollLoop { s with pollIdx := s.pollIdx + 1 } position delay n
          with _ | (e | ⟨s2, tr2⟩)
        · simp [hrec] at h
        · simp [hrec] at h
        · obtain ⟨m, hm⟩ := ih { s with pollIdx := s.pollIdx + 1 } (s2, tr2) hrec
          exact ⟨m + 1, by
            rw [show s.pollIdx + (m + 1) = s.pollIdx + 1 + m from by omega]
            exact hm⟩

/-- If every query strictly before the (k+1)-th returns a stable position
other than the target and the (k+1)-th returns the target, the loop ends
after exactly those queries, with the canonical trace. -/
lemma pollLoop_reaches (position : Position) (delay : ℚ) :
    ∀ (k : ℕ) (s : FFState),
      Position.ofCode (s.pollResults (s.pollIdx + k)) = some position →
      (∀ m, m < k → ∃ q, q ≠ position ∧
        Position.ofCode (s.pollResults (s.pollIdx + m)) = some q) →
      ∀ fuel, k < fuel →
        pollLoop s position delay fuel =
          some (Except.ok ({ s with pollIdx := s.pollIdx + k + 1 },
            loopTrace s delay k)) := by
  intro k
  induction k with
  | zero =>
    intro s harr hmin fuel hfuel
    obtain ⟨f, rfl⟩ : ∃ f, fuel = f + 1 := ⟨fuel - 1, by omega⟩
    rw [Nat.add_zero] at harr
    simp [pollLoop, get_position_some s position harr, loopTrace]
  | succ k ih =>
    intro s harr hmin fuel hfuel
    obtain ⟨f, rfl⟩ : ∃ f, fuel = f + 1 := ⟨fuel - 1, by omega⟩
    obtain ⟨q, hqne, hq⟩ := hmin 0 (Nat.succ_pos k)
    rw [Nat.add_zero] at hq
    have harr' : Position.ofCode (s.pollResults (s.pollIdx + 1 + k)) = some position := by
      rw [show s.pollIdx + 1 + k = s.pollIdx + (k + 1) from by omega]
      exact harr
    have hmin' : ∀ m, m < k → ∃ r, r ≠ position ∧
        Position.ofCode (s.pollResults (s.pollIdx + 1 + m)) = some r := by
      intro m hm
      obtain ⟨r, hr1, hr2⟩ := hmin (m + 1) (by omega)
      refine ⟨r, hr1, ?_⟩
      rw [show s.pollIdx + 1 + m = s.pollIdx + (m + 1) from by omega]
      exact hr2
    have hrec := ih { s with pollIdx := s.pollIdx + 1 } harr' hmin' f (by omega)
    simp only [pollLoop, get_position_some s q hq, if_neg hqne, hrec, loopTrace]
    simp only [Option.some.injEq, Except.ok.injEq, Prod.mk.injEq, FFState.mk.injEq,
      and_true, true_and]
    exact ⟨by omega, by simp⟩

/-- If every query returns a stable position other than the target, the
loop never ends: every fuel bound is exhausted. -/
lemma pollLoop_stuck (position : Position) (delay : ℚ) :
    ∀ (fuel : ℕ) (s : FFState),
      (∀ m, ∃ q, q ≠ position ∧
        Position.ofCode (s.pollResults (s.pollIdx + m)) = some q) →
      pollLoop s position delay fuel = none := by
  intro fuel
  induction fuel with
  | zero =>
    intro s _
    rfl
  | succ n ih =>
    intro s hmin
    obtain ⟨q, hqne, hq⟩ := hmin 0
    rw [Nat.add_zero] at hq
    have hrec := ih { s with pollIdx := s.pollIdx + 1 } (fun m => by
      obtain ⟨r, hr1, hr2⟩ := hmin (m + 1)
      refine ⟨r, hr1, ?_⟩
      show Position.ofCode (s.pollResults (s.pollIdx + 1 + m)) = some r
      rw [show s.pollIdx + 1 + m = s.pollIdx + (m + 1) from by omega]
      exact hr2)
    simp [pollLoop, get_position_some s q hq, if_neg hqne, hrec]

/-- Unfolding of `move_and_wait` when the current reported position is a
known stable position different from the (valid) target: one position
query, one transit-time query, one move command, the transit sleep, then
the polling loop. -/
lemma move_and_wait_unfold (s : FFState) (position current : Position) (delay : ℚ)
    (fuel : ℕ)
    (hvalid : isValidPosition position = true)
    (hcur : Position.ofCode (s.pollResults s.pollIdx) = some current)
    (hne : current ≠ position) :
    move_and_wait s position delay fuel =
      match pollLoop { s with pollIdx := s.pollIdx + 1 } position delay fuel with
      | none => none
      | some (Except.error e) => some (Except.error e)
      | some (Except.ok (s4, tr4)) =>
        some (Except.ok (s4,
          NativeCall.getPositionCall (s.pollResults s.pollIdx) ::
            NativeCall.getTransitTime s.transit ::
              NativeCall.moveToPosition position.value ::
                NativeCall.sleepSec ((s.transit : ℚ) / 1000) :: tr4)) := by
  rcases hrec : pollLoop { s with pollIdx := s.pollIdx + 1 } position delay fuel
    with _ | (e | ⟨s4, tr4⟩) <;>
    simp [move_and_wait, get_position_some s current hcur, hvalid, hne,
      get_transit_time, move_to, hrec]

/-- C1: when the reported position is a stable position different from the
valid target, `move_and_wait` reads the transit time, issues exactly one
move command, sleeps the transit time, then polls (sleeping the given
delay between queries) with no upper bound: it ends normally for some fuel
iff a later query reports the target, and when the target is first
reported by the N-th later query the trace is exactly one position query,
one transit-time query, one move, the transit sleep, and the polling loop
trace. -/
theorem C1_move_and_wait_protocol (s : FFState) (position current : Position) (delay : ℚ)
    (hvalid : isValidPosition position = true)
    (hcur : Position.ofCode (s.pollResults s.pollIdx) = some current)
    (hne : current ≠ position)
    (hall : ∀ n, ∃ q, Position.ofCode (s.pollResults n) = some q) :
    ((∃ fuel r, move_and_wait s position delay fuel = some (Except.ok r)) ↔
      ∃ n, 1 ≤ n ∧ Position.ofCode (s.pollResults (s.pollIdx + n)) = some position) ∧
    (∀ N, 1 ≤ N →
      Position.ofCode (s.pollResults (s.pollIdx + N)) = some position →
      (∀ m, 1 ≤ m → m < N →
        Position.ofCode (s.pollResults (s.pollIdx + m)) ≠ some position) →
      ∀ fuel, N ≤ fuel →
        move_and_wait s position delay fuel =
          some (Except.ok ({ s with pollIdx := s.pollIdx + N + 1 },
            NativeCall.getPositionCall (s.pollResults s.pollIdx) ::
              NativeCall.getTransitTime s.transit ::
                NativeCall.moveToPosition position.value ::
                  NativeCall.sleepSec ((s.transit : ℚ) / 1000) ::
                    loopTrace { s with pollIdx := s.pollIdx + 1 } delay (N - 1)))) ∧
    (∀ fuel s' tr, move_and_wait s position delay fuel = some (Except.ok (s', tr)) →
      tr.countP NativeCall.isMove = 1) := by
  have hpart2 : ∀ N, 1 ≤ N →
      Position.ofCode (s.pollResults (s.pollIdx + N)) = some position →
      (∀ m, 1 ≤ m → m < N →
        Position.ofCode (s.pollResults (s.pollIdx + m)) ≠ some position) →
      ∀ fuel, N ≤ fuel →
        move_and_wait s position delay fuel =
          some (Except.ok ({ s with pollIdx := s.pollIdx + N + 1 },
            NativeCall.getPositionCall (s.pollResults s.pollIdx) ::
              NativeCall.getTransitTime s.transit ::
                NativeCall.moveToPosition position.value ::
                  NativeCall.sleepSec ((s.transit : ℚ) / 1000) ::
                    loopTrace { s with pollIdx := s.pollIdx + 1 } delay (N - 1))) := by
    intro N hN harr hmin fuel hfuel
    have harr1 : Position.ofCode
        (s.pollResults (s.pollIdx + 1 + (N - 1))) = some position := by
      rw [show s.pollIdx + 1 + (N - 1) = s.pollIdx + N from by omega]
      exact harr
    have hmin1 : ∀ m, m < N - 1 → ∃ q, q ≠ position ∧
        Position.ofCode (s.pollResults (s.pollIdx + 1 + m)) = some q := by
      intro m hm
      obtain ⟨q, hq⟩ := hall (s.pollIdx + 1 + m)
      refine ⟨q, ?_, hq⟩
      intro hqp
      apply hmin (m + 1) (by omega) (by omega)
      rw [show s.pollIdx + (m + 1) = s.pollIdx + 1 + m from by omega]
      rw [hq, hqp]
    have hloop := pollLoop_reaches position delay (N - 1)
      { s with pollIdx := s.pollIdx + 1 } harr1 hmin1 fuel (by omega)
    rw [move_and_wait_unfold s position current delay fuel hvalid hcur hne]
    simp only [hloop]
    simp only [Option.some.injEq, Except.ok.injEq, Prod.mk.injEq, FFState.mk.injEq,
      List.cons.injEq, and_true, true_and]
    omega
  refine ⟨⟨?_, ?_⟩, hpart2, ?_⟩
  · rintro ⟨fuel, r, hok⟩
    rw [move_and_wait_unfold s position current delay fuel hvalid hcur hne] at hok
    rcases hrec : pollLoop { s with pollIdx := s.pollIdx + 1 } position delay fuel
      with _ | (e | ⟨s4, tr4⟩)
    · simp [hrec] at hok
    · simp [hrec] at hok
    · obtain ⟨m, hm⟩ := pollLoop_ok_arrival position delay fuel
        { s with pollIdx := s.pollIdx + 1 } (s4, tr4) hrec
      refine ⟨m + 1, by omega, ?_⟩
      rw [show s.pollIdx + (m + 1) = s.pollIdx + 1 + m from by omega]
      exact hm
  · rintro ⟨n, hn1, hn⟩
    have hexists : ∃ j, Position.ofCode
        (s.pollResults (s.pollIdx + 1 + j)) = some position := by
      refine ⟨n - 1, ?_⟩
      rw [show s.pollIdx + 1 + (n - 1) = s.pollIdx + n from by omega]
      exact hn
    have hk := Nat.find_spec hexists
    have hkmin : ∀ m, m < Nat.find hexists →
        ¬ Position.ofCode (s.pollResults (s.pollIdx + 1 + m)) = some position :=
      fun m hm => Nat.find_min hexists hm
    refine ⟨Nat.find hexists + 1, ?_⟩
    have harr : Position.ofCode
        (s.pollResults (s.pollIdx + (Nat.find hexists + 1))) = some position := by
      rw [show s.pollIdx + (Nat.find hexists + 1) = s.pollIdx + 1 + Nat.find hexists
        from by omega]
      exact hk
    have hmin : ∀ m, 1 ≤ m → m < Nat.find hexists + 1 →
        Position.ofCode (s.pollResults (s.pollIdx + m)) ≠ some position := by
      intro m h1 h2 hcontra
      apply hkmin (m - 1) (by omega)
      rw [show s.pollIdx + 1 + (m - 1) = s.pollIdx + m from by omega]
      exact hcontra
    exact ⟨_, hpart2 (Nat.find hexists + 1) (by omega) harr hmin
      (Nat.find hexists + 1) le_rfl⟩
  · intro fuel s' tr hok
    rw [move_and_wait_unfold s position current delay fuel hvalid hcur hne] at hok
    rcases hrec : pollLoop { s with pollIdx := s.pollIdx + 1 } position delay fuel
      with _ | (e | ⟨s4, tr4⟩)
    · simp [hrec] at hok
    · simp [hrec] at hok
    · simp only [hrec, Option.some.injEq, Except.ok.injEq, Prod.mk.injEq] at hok
      rw [← hok.2]
      have h0 := pollLoop_no_move position delay fuel
        { s with pollIdx := s.pollIdx + 1 } s4 tr4 hrec
      simp [List.countP_cons, NativeCall.isMove, h0]

/-- C1 witness: a device reporting `one` then `two`, commanded to `two`
with delay 100 ms and fuel 2, arriving on the first loop query. -/
theorem C1_move_and_wait_protocol_witness :
    move_and_wait sampleOneThenTwo Position.two 100 2 =
      some (Except.ok
        ({ sampleOneThenTwo with pollIdx := sampleOneThenTwo.pollIdx + 1 + 1 },
        NativeCall.getPositionCall (sampleOneThenTwo.pollResults sampleOneThenTwo.pollIdx) ::
          NativeCall.getTransitTime sampleOneThenTwo.transit ::
            NativeCall.moveToPosition Position.two.value ::
              NativeCall.sleepSec ((sampleOneThenTwo.transit : ℚ) / 1000) ::
                loopTrace { sampleOneThenTwo with pollIdx := sampleOneThenTwo.pollIdx + 1 }
                  100 (1 - 1))) :=
  (C1_move_and_wait_protocol sampleOneThenTwo Position.two Position.one 100
    (by decide) rfl (by decide)
    (fun n => by cases n <;> exact ⟨_, rfl⟩)).2.1
    1 le_rfl rfl (fun m h1 h2 => absurd h2 (by omega)) 2 (by omega)

/-- C9: `start_polling` stores and passes the millisecond magnitude of the
given period unchanged; at the fractional period 100.6 ms the value used
is not the period rounded to the nearest whole millisecond, contradicting
the method's own docstring. -/
theorem C9_start_polling_not_rounded :
    (start_polling sampleTwo (503 / 5)).1 = 503 / 5 ∧
    (start_polling sampleTwo (503 / 5)).2 = [NativeCall.startPolling (503 / 5)] ∧
    ((503 : ℚ) / 5) ≠ ((round ((503 : ℚ) / 5) : ℤ) : ℚ) := by
  refine ⟨rfl, rfl, ?_⟩
  have h : round ((503 : ℚ) / 5) = 101 := by
    rw [round_eq, Int.floor_eq_iff]
    constructor <;> norm_num
  rw [h]
  norm_num

end FilterFlipper
